import Mathlib

/-!
Verification of the cluster ranking and presentation logic of
`src/static/script.js` (repository Hean-Macharia/cluster-points).

The relevant JavaScript is shallowly embedded below:

* JavaScript numbers are modelled by `JSNum`: either an exact rational
  (`JSNum.num`), one of the two infinities, or `NaN`.  All point values that
  occur are 3-decimal strings in [0, 48], for which IEEE-754 doubles are
  order-isomorphic to the exact rationals and all comparisons against the
  literals 0, 15 and 30 agree, so rationals model the doubles faithfully for
  every comparison the source performs.
* `parseFloat` embeds the JavaScript builtin `parseFloat` (whitespace skip,
  optional sign, `Infinity`, longest decimal-literal prefix with optional
  fraction and exponent, `NaN` when no digit is consumed).
* `Array.prototype.sort` (ES2019: stable) with a consistent comparator
  produces the unique stable, comparator-sorted permutation, which is the
  insertion sort `stableSort` below; a comparator result of `NaN` is treated
  by the ES `SortCompare` operation as `+0`, i.e. as a tie.
* DOM reads/writes are embedded by data flow: `displayResults` renders the
  id of a cluster as the text of `.cluster-number` (an exact decimal
  round-trip, kept as the id itself) and `formatClusterPoints _` as the HTML
  of `.cluster-points`, whose text content is the second component of the
  embedded `formatClusterPoints`; `sortClusters` re-derives its keys from
  those texts, which `domPoints` reproduces.
-/

/-- A JavaScript number: `NaN`, `±Infinity`, or a finite value (modelled as an
exact rational, see the header comment). -/
inductive JSNum where
  | nan : JSNum
  | posInf : JSNum
  | negInf : JSNum
  | num : ℚ → JSNum
deriving DecidableEq

namespace JSNum

/-- JavaScript `x - y`. -/
def sub : JSNum → JSNum → JSNum
  | nan, _ => nan
  | _, nan => nan
  | posInf, posInf => nan
  | posInf, negInf => posInf
  | posInf, num _ => posInf
  | negInf, negInf => nan
  | negInf, posInf => negInf
  | negInf, num _ => negInf
  | num _, posInf => negInf
  | num _, negInf => posInf
  | num a, num b => num (a - b)

/-- JavaScript `x >= y` (false whenever an operand is `NaN`). -/
def ge : JSNum → JSNum → Bool
  | nan, _ => false
  | _, nan => false
  | posInf, _ => true
  | negInf, negInf => true
  | negInf, posInf => false
  | negInf, num _ => false
  | num _, posInf => false
  | num _, negInf => true
  | num a, num b => decide (b ≤ a)

/-- JavaScript `x > y` (false whenever an operand is `NaN`). -/
def gt : JSNum → JSNum → Bool
  | nan, _ => false
  | _, nan => false
  | posInf, posInf => false
  | posInf, _ => true
  | negInf, _ => false
  | num _, posInf => false
  | num _, negInf => true
  | num a, num b => decide (b < a)

/-- JavaScript `x < y` (false whenever an operand is `NaN`). -/
def lt (x y : JSNum) : Bool := gt y x

/-- JavaScript strict equality `x === 0`. -/
def eqZero : JSNum → Bool
  | num q => decide (q = 0)
  | _ => false

/-- The sign of a comparator result, as used by the ES `SortCompare`
operation: `NaN` counts as zero (a tie). -/
def csign : JSNum → Ordering
  | nan => Ordering.eq
  | posInf => Ordering.gt
  | negInf => Ordering.lt
  | num q => if q < 0 then Ordering.lt else if 0 < q then Ordering.gt else Ordering.eq

end JSNum

/-- JavaScript whitespace accepted by `parseFloat` (the ASCII cases plus
no-break space). -/
def jsIsWhitespace (c : Char) : Bool :=
  c = ' ' || c = '\t' || c = '\n' || c = '\r' || c = '\x0b' || c = '\x0c' || c = '\xa0'

/-- Value of a digit string, most significant first. -/
def digitsToNat (ds : List Char) : ℕ :=
  ds.foldl (fun n c => 10 * n + (c.toNat - 48)) 0

/-- The JavaScript builtin `parseFloat`: skip whitespace, optional sign, then
either `Infinity` or the longest decimal-literal prefix
`digits [. digits] [e|E [sign] digits]`; `NaN` if no digit is consumed. -/
def parseFloat (s : String) : JSNum :=
  let cs0 := s.data.dropWhile jsIsWhitespace
  let sign : ℚ := match cs0 with
    | '-' :: _ => -1
    | _ => 1
  let cs := match cs0 with
    | '+' :: rest => rest
    | '-' :: rest => rest
    | _ => cs0
  if cs.take 8 = "Infinity".data then
    (if sign = 1 then JSNum.posInf else JSNum.negInf)
  else
    let intPart := cs.takeWhile Char.isDigit
    let rest1 := cs.drop intPart.length
    let fracPart := match rest1 with
      | '.' :: r => r.takeWhile Char.isDigit
      | _ => []
    let rest2 := match rest1 with
      | '.' :: r => r.drop fracPart.length
      | _ => rest1
    if intPart = [] ∧ fracPart = [] then JSNum.nan
    else
      let mantissa : ℚ :=
        (digitsToNat intPart : ℚ) + (digitsToNat fracPart : ℚ) / ((10 : ℚ) ^ fracPart.length)
      let exp : ℤ := match rest2 with
        | e :: r =>
          if e = 'e' ∨ e = 'E' then
            let esign : ℤ := match r with
              | '-' :: _ => -1
              | _ => 1
            let r2 := match r with
              | '+' :: rr => rr
              | '-' :: rr => rr
              | _ => r
            let eds := r2.takeWhile Char.isDigit
            if eds = [] then 0 else esign * (digitsToNat eds : ℤ)
          else 0
        | [] => 0
      JSNum.num (sign * mantissa * (10 : ℚ) ^ exp)

/-- Display severity tier of a cluster value.  In the source the tier is the
CSS class of the rendered points span: `points-high` ↦ `high`,
`points-medium` ↦ `medium`, no span ↦ `low`, `points-zero` ↦ `zero`. -/
inductive Tier where
  | high : Tier
  | medium : Tier
  | low : Tier
  | zero : Tier
deriving DecidableEq

/-- `formatClusterPoints` (script.js lines 41-47).  The result is the tier
(the CSS class of the returned HTML) together with the text content of the
returned HTML: the original formatted string in the first three branches and
the literal `"0.000"` in the last. -/
def formatClusterPoints (points : String) : Tier × String :=
  let num := parseFloat points
  if JSNum.ge num (JSNum.num 30) then (Tier.high, points)
  else if JSNum.ge num (JSNum.num 15) then (Tier.medium, points)
  else if JSNum.gt num (JSNum.num 0) then (Tier.low, points)
  else (Tier.zero, "0.000")

/-- One subject contribution, as passed to `showClusterDetails`. -/
structure SubjectContribution where
  subject : String
  grade : String
  points : ℤ
  requirement : Option String
deriving DecidableEq

/-- Execution of `showClusterDetails` (script.js lines 49-88).  After the
modal title is set (line 53), the local `html` is read without ever having
been declared — the initialization that evidently belonged on the blank
line 55 is missing.  JavaScript raises `ReferenceError` at the first read
of an undeclared variable: with a nonempty `subjectsUsed` that read is
`html += ...` at line 58, before the badge loop and the `totalPoints`
accumulation of lines 61-75 run; with an empty one it is
`modalContent.innerHTML = html` at line 83.  So the function always throws
and renders nothing; the embedding mirrors the branch at line 57 and
returns the error each branch raises. -/
def showClusterDetails (subjectsUsed : List SubjectContribution) : Except String Unit :=
  if 0 < subjectsUsed.length then
    Except.error "ReferenceError: html is not defined"
  else
    Except.error "ReferenceError: html is not defined"

/-- A normalized cluster record, as built by `displayResults` (script.js
lines 118-124). -/
structure ClusterResult where
  id : ℕ
  name : String
  points : JSNum
  pointsFormatted : String
  description : String
deriving DecidableEq

/-- The detail record `data.details["Cluster k"]`. -/
structure ClusterDetail where
  description : String
  subjects_used : List SubjectContribution

/-- The normalization loop of `displayResults` (script.js lines 113-126):
for each id 1..20 whose key is present in the results mapping with a truthy
(non-empty) formatted string, a record is pushed with `points` the
`parseFloat` of that string; `description` is
`data.details[clusterKey]?.description || ''`. -/
def normalizeResults (results : ℕ → Option String)
    (details : ℕ → Option ClusterDetail) : List ClusterResult :=
  (List.range' 1 20).filterMap (fun i =>
    match results i with
    | none => none
    | some s =>
      if s = "" then none
      else some {
        id := i
        name := "Cluster " ++ toString i
        points := parseFloat s
        pointsFormatted := s
        description := match details i with
          | some d => d.description
          | none => "" })

/-- Stable insertion of `x` into `l`: `x` is placed before the first element
`y` with `le x y`. -/
def insertSorted {α : Type} (le : α → α → Bool) (x : α) : List α → List α
  | [] => [x]
  | y :: ys => if le x y then x :: y :: ys else y :: insertSorted le x ys

/-- Stable insertion sort.  For a consistent comparator this is the unique
stable sorted permutation, hence the result of ES2019
`Array.prototype.sort`. -/
def stableSort {α : Type} (le : α → α → Bool) : List α → List α
  | [] => []
  | x :: xs => insertSorted le x (stableSort le xs)

/-- The order produced by a JavaScript comparator: `a` may stay before `b`
exactly when the comparator result is not positive. -/
def jsLe {α : Type} (cmp : α → α → JSNum) (a b : α) : Bool :=
  !(JSNum.csign (cmp a b) == Ordering.gt)

/-- JavaScript `arr.sort(cmp)` (stable, per the header comment). -/
def jsSort {α : Type} (cmp : α → α → JSNum) (l : List α) : List α :=
  stableSort (jsLe cmp) l

/-- The display sort of `displayResults` (script.js line 129):
`clusters.sort((a, b) => b.points - a.points)`. -/
def displayOrder (clusters : List ClusterResult) : List ClusterResult :=
  jsSort (fun a b => JSNum.sub b.points a.points) clusters

/-- The top-cluster highlight set of `displayResults` (script.js lines 132
and 194): the first three entries of the points-sorted array, each shown
with the badge `Top ${clusters.indexOf(cluster) + 1}`. -/
def selectTop (clusters : List ClusterResult) : List (ClusterResult × ℕ) :=
  let sorted := displayOrder clusters
  (sorted.take 3).map (fun cluster => (cluster, sorted.indexOf cluster + 1))

/-- `text.replace(/[^\d.]/g, '')` (script.js lines 220-221, 243). -/
def stripToDigitsDot (s : String) : String :=
  String.mk (s.data.filter (fun ch => ch.isDigit || ch == '.'))

/-- The text content of a cluster card's `.cluster-points` element, as
rendered by `displayResults` (script.js line 137/156): the text of
`formatClusterPoints(cluster.pointsFormatted)`. -/
def cardPointsText (c : ClusterResult) : String :=
  (formatClusterPoints c.pointsFormatted).2

/-- The numeric key `sortClusters` re-derives from the DOM (script.js lines
220-221): `parseFloat(text.replace(/[^\d.]/g, '') || 0)`; the `|| 0`
fallback makes an empty stripped string parse as `0`. -/
def domPoints (c : ClusterResult) : JSNum :=
  let stripped := stripToDigitsDot (cardPointsText c)
  if stripped = "" then JSNum.num 0 else parseFloat stripped

/-- The comparator of `sortClusters` (script.js lines 217-235).  The id keys
are `parseInt` of the `.cluster-number` texts, an exact round-trip of the
rendered ids. -/
def sortCmp (sortType : String) (a b : ClusterResult) : JSNum :=
  let aId : ℤ := a.id
  let bId : ℤ := b.id
  let aPoints := domPoints a
  let bPoints := domPoints b
  if sortType = "number" then JSNum.num (aId - bId)
  else if sortType = "points" then JSNum.sub bPoints aPoints
  else if sortType = "non-zero" then
    (if JSNum.eqZero aPoints && JSNum.gt bPoints (JSNum.num 0) then JSNum.num 1
     else if JSNum.gt aPoints (JSNum.num 0) && JSNum.eqZero bPoints then JSNum.num (-1)
     else JSNum.sub bPoints aPoints)
  else JSNum.num (aId - bId)

/-- `sortClusters` (script.js lines 208-249): the re-ordered card list
paired with each card's visibility (lines 241-248: in `non-zero` mode a card
whose re-derived points are `=== 0` gets `display: none`, otherwise every
card gets `display: block`). -/
def sortClusters (sortType : String) (clusters : List ClusterResult) :
    List (ClusterResult × Bool) :=
  let sorted := jsSort (sortCmp sortType) clusters
  if sortType = "non-zero" then
    sorted.map (fun cluster => (cluster, !(JSNum.eqZero (domPoints cluster))))
  else
    sorted.map (fun cluster => (cluster, true))

/-- The finite value of a `JSNum`, defaulting to 0; only applied to
`JSNum.num` values (see `Normalized`). -/
def qnum : JSNum → ℚ
  | JSNum.num q => q
  | _ => 0

/-- The canonical strict display order: strictly larger points first, ties
by strictly ascending id. -/
def clusterLt (a b : ClusterResult) : Prop :=
  qnum b.points < qnum a.points ∨ (qnum a.points = qnum b.points ∧ a.id < b.id)

/-- A well-formed entry of a normalized list: finite points in [0, 48] that
are the parse of the canonical formatted string, which consists of digits
and dots only (the upstream 3-decimal textual form). -/
def goodEntry (c : ClusterResult) : Bool :=
  (match c.points with
   | JSNum.num q => decide (0 ≤ q ∧ q ≤ 48)
   | _ => false) &&
  decide (parseFloat c.pointsFormatted = c.points) &&
  c.pointsFormatted.data.all (fun ch => ch.isDigit || ch == '.')

/-- A normalized list (spec §3, §4.1): ids strictly ascending, drawn from
1..20, every entry well formed. -/
def Normalized (l : List ClusterResult) : Prop :=
  l.Pairwise (fun a b => a.id < b.id) ∧
  ∀ c ∈ l, goodEntry c = true ∧ 1 ≤ c.id ∧ c.id ≤ 20

instance : DecidablePred Normalized := fun l => by
  unfold Normalized
  infer_instance

/-- The end-to-end example results mapping of spec §8:
`{"Cluster 1": "32.500", "Cluster 2": "32.500", "Cluster 3": "0.000"}`. -/
def exResults : ℕ → Option String := fun i =>
  if i = 1 then some "32.500"
  else if i = 2 then some "32.500"
  else if i = 3 then some "0.000"
  else none

/-- An empty details mapping. -/
def exDetails : ℕ → Option ClusterDetail := fun _ => none

/-- The normalized list of the spec §8 example. -/
def exList : List ClusterResult := normalizeResults exResults exDetails

/-- A results mapping whose only entry has an unparseable formatted
string. -/
def badResults : ℕ → Option String := fun i =>
  if i = 1 then some "abc" else none

/-- First member of a points tie (id 1). -/
def tieA : ClusterResult :=
  { id := 1, name := "Cluster 1", points := JSNum.num 10
    pointsFormatted := "10.000", description := "" }

/-- Second member of a points tie (id 2). -/
def tieB : ClusterResult :=
  { id := 2, name := "Cluster 2", points := JSNum.num 10
    pointsFormatted := "10.000", description := "" }

/-! ## Properties of the stable sort -/

theorem insertSorted_perm {α : Type} (le : α → α → Bool) (x : α) :
    ∀ l : List α, (insertSorted le x l).Perm (x :: l)
  | [] => List.Perm.refl _
  | y :: ys => by
    unfold insertSorted
    by_cases h : le x y = true
    · rw [if_pos h]
    · rw [if_neg h]
      exact ((insertSorted_perm le x ys).cons y).trans (List.Perm.swap x y ys)

theorem stableSort_perm {α : Type} (le : α → α → Bool) :
    ∀ l : List α, (stableSort le l).Perm l
  | [] => List.Perm.refl _
  | x :: xs =>
    (insertSorted_perm le x (stableSort le xs)).trans ((stableSort_perm le xs).cons x)

theorem mem_insertSorted {α : Type} {le : α → α → Bool} {x a : α} {l : List α} :
    a ∈ insertSorted le x l ↔ a = x ∨ a ∈ l := by
  rw [(insertSorted_perm le x l).mem_iff, List.mem_cons]

theorem mem_stableSort {α : Type} {le : α → α → Bool} {a : α} {l : List α} :
    a ∈ stableSort le l ↔ a ∈ l :=
  (stableSort_perm le l).mem_iff

theorem insertSorted_congr {α : Type} {le₁ le₂ : α → α → Bool} {x : α} :
    ∀ {l : List α}, (∀ b ∈ l, le₁ x b = le₂ x b) →
      insertSorted le₁ x l = insertSorted le₂ x l
  | [], _ => rfl
  | y :: ys, h => by
    unfold insertSorted
    rw [h y (List.mem_cons_self y ys)]
    by_cases hy : le₂ x y = true
    · rw [if_pos hy, if_pos hy]
    · rw [if_neg hy, if_neg hy,
        insertSorted_congr (fun b hb => h b (List.mem_cons_of_mem y hb))]

theorem stableSort_congr {α : Type} {le₁ le₂ : α → α → Bool} :
    ∀ {l : List α}, (∀ a ∈ l, ∀ b ∈ l, le₁ a b = le₂ a b) →
      stableSort le₁ l = stableSort le₂ l
  | [], _ => rfl
  | x :: xs, h => by
    unfold stableSort
    rw [stableSort_congr (fun a ha b hb =>
      h a (List.mem_cons_of_mem x ha) b (List.mem_cons_of_mem x hb))]
    exact insertSorted_congr (fun b hb =>
      h x (List.mem_cons_self x xs) b
        (List.mem_cons_of_mem x (mem_stableSort.mp hb)))

theorem stableSort_eq_self {α : Type} {le : α → α → Bool} :
    ∀ {l : List α}, l.Pairwise (fun a b => le a b = true) → stableSort le l = l
  | [], _ => rfl
  | x :: xs, h => by
    unfold stableSort
    rw [stableSort_eq_self (List.Pairwise.sublist (List.sublist_cons_self x xs) h)]
    cases xs with
    | nil => rfl
    | cons y ys =>
      unfold insertSorted
      rw [if_pos (List.rel_of_pairwise_cons h (List.mem_cons_self y ys))]

theorem insertSorted_pairwise_le {α : Type} {le : α → α → Bool}
    (htot : ∀ a b, le a b = true ∨ le b a = true)
    (htrans : ∀ a b c, le a b = true → le b c = true → le a c = true) (x : α) :
    ∀ {l : List α}, l.Pairwise (fun a b => le a b = true) →
      (insertSorted le x l).Pairwise (fun a b => le a b = true)
  | [], _ => List.pairwise_singleton _ x
  | y :: ys, h => by
    unfold insertSorted
    by_cases hxy : le x y = true
    · rw [if_pos hxy]
      refine List.Pairwise.cons (fun b hb => ?_) h
      rcases List.mem_cons.mp hb with hb | hb
      · exact hb ▸ hxy
      · exact htrans x y b hxy (List.rel_of_pairwise_cons h hb)
    · rw [if_neg hxy]
      refine List.Pairwise.cons (fun b hb => ?_)
        (insertSorted_pairwise_le htot htrans x
          (List.Pairwise.sublist (List.sublist_cons_self y ys) h))
      rcases mem_insertSorted.mp hb with hb | hb
      · rw [hb]
        rcases htot x y with hx | hx
        · exact absurd hx hxy
        · exact hx
      · exact List.rel_of_pairwise_cons h hb

theorem stableSort_pairwise_le {α : Type} {le : α → α → Bool}
    (htot : ∀ a b, le a b = true ∨ le b a = true)
    (htrans : ∀ a b c, le a b = true → le b c = true → le a c = true) :
    ∀ l : List α, (stableSort le l).Pairwise (fun a b => le a b = true)
  | [] => List.Pairwise.nil
  | x :: xs =>
    insertSorted_pairwise_le htot htrans x (stableSort_pairwise_le htot htrans xs)

theorem insertSorted_key {α : Type} {k : α → ℚ} {t : α → ℕ} {le : α → α → Bool} {x : α} :
    ∀ {ys : List α},
      ys.Pairwise (fun a b => k b < k a ∨ (k a = k b ∧ t a < t b)) →
      (∀ y ∈ ys, le x y = decide (k y ≤ k x)) →
      (∀ y ∈ ys, t x < t y) →
      (insertSorted le x ys).Pairwise (fun a b => k b < k a ∨ (k a = k b ∧ t a < t b))
  | [], _, _, _ => List.pairwise_singleton _ x
  | y :: ys, hp, hle, ht => by
    unfold insertSorted
    by_cases hxy : le x y = true
    · rw [if_pos hxy]
      have hyx : k y ≤ k x := by
        have := (hle y (List.mem_cons_self y ys)).symm.trans hxy
        exact of_decide_eq_true this
      refine List.Pairwise.cons (fun b hb => ?_) hp
      have hkb : k b ≤ k y := by
        rcases List.mem_cons.mp hb with hb | hb
        · rw [hb]
        · rcases List.rel_of_pairwise_cons hp hb with h | h
          · exact le_of_lt h
          · exact le_of_eq h.1.symm
      rcases lt_or_eq_of_le (hkb.trans hyx) with h | h
      · exact Or.inl h
      · exact Or.inr ⟨h.symm, ht b hb⟩
    · rw [if_neg hxy]
      have hxy2 : k x < k y := by
        have hd := hle y (List.mem_cons_self y ys)
        have hk : ¬(k y ≤ k x) := fun hk => hxy (hd.trans (decide_eq_true hk))
        exact lt_of_not_le hk
      refine List.Pairwise.cons (fun b hb => ?_)
        (insertSorted_key (List.Pairwise.sublist (List.sublist_cons_self y ys) hp)
          (fun b hb => hle b (List.mem_cons_of_mem y hb))
          (fun b hb => ht b (List.mem_cons_of_mem y hb)))
      rcases mem_insertSorted.mp hb with hb | hb
      · rw [hb]
        exact Or.inl hxy2
      · exact List.rel_of_pairwise_cons hp hb

theorem stableSort_key {α : Type} {k : α → ℚ} {t : α → ℕ} {le : α → α → Bool} :
    ∀ {l : List α},
      (∀ a ∈ l, ∀ b ∈ l, le a b = decide (k b ≤ k a)) →
      l.Pairwise (fun a b => t a < t b) →
      (stableSort le l).Pairwise (fun a b => k b < k a ∨ (k a = k b ∧ t a < t b))
  | [], _, _ => List.Pairwise.nil
  | x :: xs, hle, hp => by
    unfold stableSort
    have hsub : ∀ a ∈ stableSort le xs, a ∈ xs := fun a ha => mem_stableSort.mp ha
    refine insertSorted_key
      (stableSort_key
        (fun a ha b hb =>
          hle a (List.mem_cons_of_mem x ha) b (List.mem_cons_of_mem x hb))
        (List.Pairwise.sublist (List.sublist_cons_self x xs) hp))
      (fun b hb =>
        hle x (List.mem_cons_self x xs) b (List.mem_cons_of_mem x (hsub b hb)))
      (fun b hb => List.rel_of_pairwise_cons hp (hsub b hb))

theorem eq_of_perm_pairwise {α : Type} {R : α → α → Prop}
    (hasymm : ∀ a b, R a b → R b a → False) {l₁ l₂ : List α}
    (hperm : l₁.Perm l₂) (h₁ : l₁.Pairwise R) (h₂ : l₂.Pairwise R) : l₁ = l₂ := by
  haveI : IsAntisymm α R := ⟨fun a b hab hba => (hasymm a b hab hba).elim⟩
  exact List.eq_of_perm_of_sorted hperm h₁ h₂

/-! ## Facts about the embedded JavaScript primitives -/

theorem jsLe_num {α : Type} {cmp : α → α → JSNum} {a b : α} {d : ℚ}
    (h : cmp a b = JSNum.num d) : jsLe cmp a b = decide (d ≤ 0) := by
  unfold jsLe
  rw [h]
  show (!((if d < 0 then Ordering.lt else if 0 < d then Ordering.gt else Ordering.eq) ==
      Ordering.gt)) = decide (d ≤ 0)
  rcases lt_trichotomy d 0 with hd | hd | hd
  · rw [if_pos hd, decide_eq_true (le_of_lt hd)]
    rfl
  · rw [if_neg (by rw [hd]; exact lt_irrefl 0), if_neg (by rw [hd]; exact lt_irrefl 0),
      decide_eq_true (le_of_eq hd)]
    rfl
  · rw [if_neg (not_lt_of_gt hd), if_pos hd, decide_eq_false (not_le_of_gt hd)]
    rfl

theorem clusterLt_asymm (a b : ClusterResult) :
    clusterLt a b → clusterLt b a → False := by
  intro h1 h2
  rcases h1 with h1 | ⟨he1, h1⟩ <;> rcases h2 with h2 | ⟨he2, h2⟩
  · exact absurd h2 (not_lt_of_gt h1)
  · exact absurd he2 (ne_of_lt h1)
  · exact absurd he1 (ne_of_lt h2)
  · exact absurd h2 (lt_asymm h1)

theorem goodEntry_elim {c : ClusterResult} (h : goodEntry c = true) :
    c.points = JSNum.num (qnum c.points) ∧ 0 ≤ qnum c.points ∧ qnum c.points ≤ 48 ∧
      parseFloat c.pointsFormatted = c.points ∧
      ∀ ch ∈ c.pointsFormatted.data, (ch.isDigit || ch == '.') = true := by
  unfold goodEntry at h
  rw [Bool.and_eq_true, Bool.and_eq_true] at h
  obtain ⟨⟨hband, hparse⟩, hall⟩ := h
  have hex : ∃ q : ℚ, c.points = JSNum.num q ∧ 0 ≤ q ∧ q ≤ 48 := by
    cases hc : c.points with
    | num q => rw [hc] at hband; exact ⟨q, rfl, of_decide_eq_true hband⟩
    | nan => rw [hc] at hband; exact absurd hband (by decide)
    | posInf => rw [hc] at hband; exact absurd hband (by decide)
    | negInf => rw [hc] at hband; exact absurd hband (by decide)
  obtain ⟨q, hq, h0, h48⟩ := hex
  refine ⟨?_, ?_, ?_, of_decide_eq_true hparse,
    fun ch hch => List.all_eq_true.mp hall ch hch⟩
  · rw [hq]; rfl
  · rw [hq]; exact h0
  · rw [hq]; exact h48

theorem stripToDigitsDot_eq_self {s : String}
    (h : ∀ ch ∈ s.data, (ch.isDigit || ch == '.') = true) :
    stripToDigitsDot s = s := by
  obtain ⟨d⟩ := s
  unfold stripToDigitsDot
  rw [show (String.mk d).data = d from rfl, List.filter_eq_self.mpr h]

theorem parseFloat_empty : parseFloat "" = JSNum.nan := by decide

theorem cardPointsText_eq {c : ClusterResult} (h : goodEntry c = true) :
    cardPointsText c = c.pointsFormatted ∨
      (cardPointsText c = "0.000" ∧ c.points = JSNum.num 0) := by
  obtain ⟨hnum, h0, _, hparse, _⟩ := goodEntry_elim h
  unfold cardPointsText formatClusterPoints
  rw [hparse, hnum]
  by_cases h30 : JSNum.ge (JSNum.num (qnum c.points)) (JSNum.num 30) = true
  · rw [if_pos h30]; exact Or.inl rfl
  · rw [if_neg h30]
    by_cases h15 : JSNum.ge (JSNum.num (qnum c.points)) (JSNum.num 15) = true
    · rw [if_pos h15]; exact Or.inl rfl
    · rw [if_neg h15]
      by_cases hgt : JSNum.gt (JSNum.num (qnum c.points)) (JSNum.num 0) = true
      · rw [if_pos hgt]; exact Or.inl rfl
      · rw [if_neg hgt]
        have hq0 : qnum c.points = 0 := by
          have hnl : ¬(0 < qnum c.points) := fun hlt => hgt (decide_eq_true hlt)
          exact le_antisymm (not_lt.mp hnl) h0
        exact Or.inr ⟨rfl, by rw [hnum, hq0]; rfl⟩

theorem domPoints_eq_points {c : ClusterResult} (h : goodEntry c = true) :
    domPoints c = c.points := by
  obtain ⟨hnum, _, _, hparse, hchars⟩ := goodEntry_elim h
  unfold domPoints
  rcases cardPointsText_eq h with hct | ⟨hct, hp0⟩
  · rw [hct, stripToDigitsDot_eq_self hchars]
    rw [if_neg (fun he => by rw [he, parseFloat_empty] at hparse; rw [hnum] at hparse; cases hparse)]
    rw [hparse]
  · rw [hct]
    rw [show stripToDigitsDot "0.000" = "0.000" from by decide]
    rw [if_neg (by decide : ¬("0.000" : String) = "")]
    rw [show parseFloat "0.000" = JSNum.num 0 from by with_unfolding_all decide, hp0]

theorem domPoints_num {c : ClusterResult} (h : goodEntry c = true) :
    domPoints c = JSNum.num (qnum c.points) :=
  (domPoints_eq_points h).trans (goodEntry_elim h).1

theorem sortCmp_points_def (a b : ClusterResult) :
    sortCmp "points" a b = JSNum.sub (domPoints b) (domPoints a) := rfl

theorem sortCmp_nonzero_def (a b : ClusterResult) :
    sortCmp "non-zero" a b =
      (if JSNum.eqZero (domPoints a) && JSNum.gt (domPoints b) (JSNum.num 0) then JSNum.num 1
       else if JSNum.gt (domPoints a) (JSNum.num 0) && JSNum.eqZero (domPoints b) then
         JSNum.num (-1)
       else JSNum.sub (domPoints b) (domPoints a)) := rfl


theorem eqZero_num (q : ℚ) : JSNum.eqZero (JSNum.num q) = decide (q = 0) := rfl

theorem gt_num_num (a b : ℚ) : JSNum.gt (JSNum.num a) (JSNum.num b) = decide (b < a) := rfl

theorem sub_num_num (a b : ℚ) : JSNum.sub (JSNum.num a) (JSNum.num b) = JSNum.num (a - b) := rfl

theorem sortCmp_id_def {m : String} (h2 : m ≠ "points") (h3 : m ≠ "non-zero")
    (a b : ClusterResult) :
    sortCmp m a b = JSNum.num (((a.id : ℤ) : ℚ) - ((b.id : ℤ) : ℚ)) := by
  unfold sortCmp
  by_cases h1 : m = "number"
  · rw [if_pos h1]
  · rw [if_neg h1, if_neg h2, if_neg h3]

theorem jsLe_sortCmp_id {m : String} (h2 : m ≠ "points") (h3 : m ≠ "non-zero")
    (a b : ClusterResult) :
    jsLe (sortCmp m) a b = decide (a.id ≤ b.id) := by
  rw [jsLe_num (sortCmp_id_def h2 h3 a b)]
  refine decide_eq_decide.mpr ?_
  rw [sub_nonpos, Int.cast_le, Int.ofNat_le]

theorem jsLe_display {a b : ClusterResult} (ha : goodEntry a = true) (hb : goodEntry b = true) :
    jsLe (fun x y => JSNum.sub y.points x.points) a b =
      decide (qnum b.points ≤ qnum a.points) := by
  refine (jsLe_num ?_).trans (decide_eq_decide.mpr sub_nonpos)
  show JSNum.sub b.points a.points = JSNum.num (qnum b.points - qnum a.points)
  rw [(goodEntry_elim ha).1, (goodEntry_elim hb).1]
  rfl

theorem jsLe_sortCmp_points {a b : ClusterResult} (ha : goodEntry a = true)
    (hb : goodEntry b = true) :
    jsLe (sortCmp "points") a b = decide (qnum b.points ≤ qnum a.points) := by
  refine (jsLe_num ?_).trans (decide_eq_decide.mpr sub_nonpos)
  rw [sortCmp_points_def, domPoints_num ha, domPoints_num hb]
  rfl

theorem jsLe_sortCmp_nonzero {a b : ClusterResult} (ha : goodEntry a = true)
    (hb : goodEntry b = true) :
    jsLe (sortCmp "non-zero") a b = decide (qnum b.points ≤ qnum a.points) := by
  have h0a := (goodEntry_elim ha).2.1
  have h0b := (goodEntry_elim hb).2.1
  have hdef := sortCmp_nonzero_def a b
  rw [domPoints_num ha, domPoints_num hb, eqZero_num, eqZero_num, gt_num_num, gt_num_num,
    sub_num_num] at hdef
  by_cases hp : qnum a.points = 0
  · by_cases hq : qnum b.points = 0
    · rw [decide_eq_false (show ¬(0 < qnum b.points) from by rw [hq]; exact lt_irrefl 0),
        decide_eq_false (show ¬(0 < qnum a.points) from by rw [hp]; exact lt_irrefl 0),
        Bool.and_false, Bool.false_and, if_neg Bool.false_ne_true,
        if_neg Bool.false_ne_true] at hdef
      rw [jsLe_num hdef]
      exact decide_eq_decide.mpr sub_nonpos
    · have hq2 : 0 < qnum b.points := lt_of_le_of_ne h0b (Ne.symm hq)
      rw [decide_eq_true hp, decide_eq_true hq2, Bool.true_and, if_pos rfl] at hdef
      rw [jsLe_num hdef, decide_eq_false (by norm_num : ¬((1 : ℚ) ≤ 0)),
        decide_eq_false (show ¬(qnum b.points ≤ qnum a.points) from by
          rw [hp]; exact not_le_of_gt hq2)]
  · have hp2 : 0 < qnum a.points := lt_of_le_of_ne h0a (Ne.symm hp)
    by_cases hq : qnum b.points = 0
    · rw [decide_eq_false hp, Bool.false_and, if_neg Bool.false_ne_true,
        decide_eq_true hp2, decide_eq_true hq, Bool.true_and, if_pos rfl] at hdef
      rw [jsLe_num hdef, decide_eq_true (by norm_num : ((-1 : ℚ) ≤ 0)),
        decide_eq_true (show qnum b.points ≤ qnum a.points from by
          rw [hq]; exact le_of_lt hp2)]
    · rw [decide_eq_false hp, Bool.false_and, if_neg Bool.false_ne_true,
        decide_eq_false hq, Bool.and_false, if_neg Bool.false_ne_true] at hdef
      rw [jsLe_num hdef]
      exact decide_eq_decide.mpr sub_nonpos

/-! ## The display order of a normalized list -/

theorem normalized_good {l : List ClusterResult} (h : Normalized l) :
    ∀ c ∈ l, goodEntry c = true :=
  fun c hc => (h.2 c hc).1

theorem normalized_ne {l : List ClusterResult} (h : Normalized l) :
    l.Pairwise (fun a b => a.id ≠ b.id) :=
  h.1.imp (fun hab => ne_of_lt hab)

theorem normalized_nodup {l : List ClusterResult} (h : Normalized l) : l.Nodup :=
  h.1.imp (fun hab he => absurd (he ▸ hab) (lt_irrefl _))

theorem displayOrder_perm (l : List ClusterResult) : (displayOrder l).Perm l :=
  stableSort_perm _ l

theorem displayOrder_good {l : List ClusterResult} (h : Normalized l) :
    ∀ c ∈ displayOrder l, goodEntry c = true :=
  fun c hc => (h.2 c ((displayOrder_perm l).mem_iff.mp hc)).1

theorem displayOrder_pairwise {l : List ClusterResult} (h : Normalized l) :
    (displayOrder l).Pairwise clusterLt :=
  stableSort_key
    (fun a ha b hb => jsLe_display (normalized_good h a ha) (normalized_good h b hb)) h.1

theorem displayOrder_sorted_le {l : List ClusterResult} (h : Normalized l) :
    (displayOrder l).Pairwise
      (fun a b => jsLe (fun x y => JSNum.sub y.points x.points) a b = true) := by
  refine List.Pairwise.imp_of_mem ?_ (displayOrder_pairwise h)
  intro a b ha hb hab
  rw [jsLe_display (displayOrder_good h a ha) (displayOrder_good h b hb)]
  refine decide_eq_true ?_
  rcases hab with hab | hab
  · exact le_of_lt hab
  · exact le_of_eq hab.1.symm

theorem displayOrder_idem {l : List ClusterResult} (h : Normalized l) :
    displayOrder (displayOrder l) = displayOrder l :=
  stableSort_eq_self (displayOrder_sorted_le h)

/-! ## Characterizing `sortClusters` by mode -/

theorem sortClusters_eq_map {m : String} (hm : m ≠ "non-zero") (l : List ClusterResult) :
    sortClusters m l = (jsSort (sortCmp m) l).map (fun c => (c, true)) := by
  simp only [sortClusters]
  rw [if_neg hm]

theorem sortClusters_nonzero_eq_map (l : List ClusterResult) :
    sortClusters "non-zero" l =
      (jsSort (sortCmp "non-zero") l).map (fun c => (c, !(JSNum.eqZero (domPoints c)))) := by
  simp only [sortClusters]
  rw [if_pos trivial]

theorem listOf_map_fst {α : Type} (l : List α) (f : α → Bool) :
    (l.map (fun c => (c, f c))).map Prod.fst = l := by
  rw [List.map_map]
  exact List.map_id' l

theorem jsSort_points_eq_displayOrder {l : List ClusterResult} (h : Normalized l) :
    jsSort (sortCmp "points") l = displayOrder l :=
  stableSort_congr (fun a ha b hb => by
    rw [jsLe_sortCmp_points (normalized_good h a ha) (normalized_good h b hb),
      jsLe_display (normalized_good h a ha) (normalized_good h b hb)])

theorem jsSort_nonzero_eq_displayOrder {l : List ClusterResult} (h : Normalized l) :
    jsSort (sortCmp "non-zero") l = displayOrder l :=
  stableSort_congr (fun a ha b hb => by
    rw [jsLe_sortCmp_nonzero (normalized_good h a ha) (normalized_good h b hb),
      jsLe_display (normalized_good h a ha) (normalized_good h b hb)])

theorem jsSort_id_eq_self {m : String} (h2 : m ≠ "points") (h3 : m ≠ "non-zero")
    {l : List ClusterResult} (h : Normalized l) : jsSort (sortCmp m) l = l :=
  stableSort_eq_self (h.1.imp (fun hab => by
    rw [jsLe_sortCmp_id h2 h3]
    exact decide_eq_true (le_of_lt hab)))

theorem jsSort_id_pairwise {m : String} (h2 : m ≠ "points") (h3 : m ≠ "non-zero")
    (l : List ClusterResult) :
    (jsSort (sortCmp m) l).Pairwise (fun a b => a.id ≤ b.id) := by
  have htot : ∀ a b : ClusterResult,
      jsLe (sortCmp m) a b = true ∨ jsLe (sortCmp m) b a = true := by
    intro a b
    rw [jsLe_sortCmp_id h2 h3, jsLe_sortCmp_id h2 h3]
    rcases Nat.le_total a.id b.id with hab | hab
    · exact Or.inl (decide_eq_true hab)
    · exact Or.inr (decide_eq_true hab)
  have htrans : ∀ a b c : ClusterResult, jsLe (sortCmp m) a b = true →
      jsLe (sortCmp m) b c = true → jsLe (sortCmp m) a c = true := by
    intro a b c hab hbc
    rw [jsLe_sortCmp_id h2 h3] at hab hbc ⊢
    exact decide_eq_true (Nat.le_trans (of_decide_eq_true hab) (of_decide_eq_true hbc))
  refine (stableSort_pairwise_le htot htrans l).imp ?_
  intro a b hab
  rw [jsLe_sortCmp_id h2 h3] at hab
  exact of_decide_eq_true hab

theorem jsSort_id_of_perm {m : String} (h2 : m ≠ "points") (h3 : m ≠ "non-zero")
    {l x : List ClusterResult} (h : Normalized l) (hperm : x.Perm l) :
    jsSort (sortCmp m) x = l := by
  have hperm2 : (jsSort (sortCmp m) x).Perm l := (stableSort_perm _ x).trans hperm
  have hne : (jsSort (sortCmp m) x).Pairwise (fun a b => a.id ≠ b.id) :=
    (List.Perm.pairwise_iff (fun hab => Ne.symm hab) hperm2).mpr (normalized_ne h)
  have hlt : (jsSort (sortCmp m) x).Pairwise (fun a b => a.id < b.id) :=
    ((jsSort_id_pairwise h2 h3 x).and hne).imp
      (fun hab => lt_of_le_of_ne hab.1 hab.2)
  exact eq_of_perm_pairwise (fun a b hab hba => absurd hba (lt_asymm hab)) hperm2 hlt h.1

theorem jsSort_points_displayOrder {l : List ClusterResult} (h : Normalized l) :
    jsSort (sortCmp "points") (displayOrder l) = displayOrder l := by
  rw [show jsSort (sortCmp "points") (displayOrder l) = displayOrder (displayOrder l) from
      stableSort_congr (fun a ha b hb => by
        rw [jsLe_sortCmp_points (displayOrder_good h a ha) (displayOrder_good h b hb),
          jsLe_display (displayOrder_good h a ha) (displayOrder_good h b hb)]),
    displayOrder_idem h]

theorem jsSort_nonzero_displayOrder {l : List ClusterResult} (h : Normalized l) :
    jsSort (sortCmp "non-zero") (displayOrder l) = displayOrder l := by
  rw [show jsSort (sortCmp "non-zero") (displayOrder l) = displayOrder (displayOrder l) from
      stableSort_congr (fun a ha b hb => by
        rw [jsLe_sortCmp_nonzero (displayOrder_good h a ha) (displayOrder_good h b hb),
          jsLe_display (displayOrder_good h a ha) (displayOrder_good h b hb)]),
    displayOrder_idem h]

theorem listOf_sortClusters {m : String} {l : List ClusterResult} (h : Normalized l) :
    (sortClusters m l).map Prod.fst = l ∨
      (sortClusters m l).map Prod.fst = displayOrder l := by
  by_cases hnz : m = "non-zero"
  · subst hnz
    right
    rw [sortClusters_nonzero_eq_map, listOf_map_fst, jsSort_nonzero_eq_displayOrder h]
  · by_cases hpt : m = "points"
    · subst hpt
      right
      rw [sortClusters_eq_map (by decide) l, listOf_map_fst, jsSort_points_eq_displayOrder h]
    · left
      rw [sortClusters_eq_map hnz l, listOf_map_fst, jsSort_id_eq_self hpt hnz h]

theorem jsSort_on_views {m : String} {l x : List ClusterResult} (h : Normalized l)
    (hx : x = l ∨ x = displayOrder l) : jsSort (sortCmp m) x = jsSort (sortCmp m) l := by
  rcases hx with hx | hx
  · rw [hx]
  · subst hx
    by_cases hnz : m = "non-zero"
    · subst hnz
      rw [jsSort_nonzero_displayOrder h, jsSort_nonzero_eq_displayOrder h]
    · by_cases hpt : m = "points"
      · subst hpt
        rw [jsSort_points_displayOrder h, jsSort_points_eq_displayOrder h]
      · rw [jsSort_id_of_perm hpt hnz h (displayOrder_perm l), jsSort_id_eq_self hpt hnz h]

theorem sortClusters_on_views {m : String} {l x : List ClusterResult} (h : Normalized l)
    (hx : x = l ∨ x = displayOrder l) : sortClusters m x = sortClusters m l := by
  by_cases hnz : m = "non-zero"
  · subst hnz
    rw [sortClusters_nonzero_eq_map, sortClusters_nonzero_eq_map, jsSort_on_views h hx]
  · rw [sortClusters_eq_map hnz, sortClusters_eq_map hnz, jsSort_on_views h hx]

/-! ## Claim theorems -/

/-- C1 (amended): for every normalized list, the points sort mode yields a
sequence with non-increasing points in which, among entries with equal
points, the entry with the smaller id appears first, and the output is a
permutation of the input.  (The tie order arises from the stability of the
sort applied to the ascending-id construction order; the comparator itself
does not discriminate ties — see the counterexample.) -/
theorem points_mode_order_of_normalized (l : List ClusterResult) (h : Normalized l) :
    ((sortClusters "points" l).map Prod.fst).Perm l ∧
    ((sortClusters "points" l).map Prod.fst).Pairwise clusterLt := by
  have he : (sortClusters "points" l).map Prod.fst = displayOrder l := by
    rw [sortClusters_eq_map (by decide) l, listOf_map_fst, jsSort_points_eq_displayOrder h]
  rw [he]
  exact ⟨displayOrder_perm l, displayOrder_pairwise h⟩

/-- C1 witness: the amended theorem applied to the concrete normalized list
of the spec §8 example. -/
theorem points_mode_order_witness :
    Normalized exList ∧
      (((sortClusters "points" exList).map Prod.fst).Perm exList ∧
        ((sortClusters "points" exList).map Prod.fst).Pairwise clusterLt) :=
  ⟨by with_unfolding_all decide,
    points_mode_order_of_normalized exList (by with_unfolding_all decide)⟩

/-- C1 counterexample: the points comparator returns 0 on a points tie (it
does not order the smaller id first by construction), and the tie order of
the sorted output follows the input order — it is exactly the incidental
stability of the underlying sort that the claim denies. -/
theorem points_tie_comparator_and_stability :
    sortCmp "points" tieA tieB = JSNum.num 0 ∧
    (sortClusters "points" [tieB, tieA]).map Prod.fst = [tieB, tieA] ∧
    (sortClusters "points" [tieA, tieB]).map Prod.fst = [tieA, tieB] := by
  with_unfolding_all decide

/-- C2 counterexample: on the results mapping
`{"Cluster 1": "32.500", "Cluster 2": "32.500", "Cluster 3": "0.000"}` the
top selection returns three entries (ids 1, 2, 3), not two: the zero-point
cluster 3 does occupy a highlight slot. -/
theorem selectTop_example_three_entries :
    (selectTop exList).length = 3 ∧
    (selectTop exList).map (fun p => p.1.id) = [1, 2, 3] := by
  with_unfolding_all decide

/-- C2 (amended): on the spec §8 example mapping, the top selection returns
exactly three ranked entries — cluster 1 with rank 1, cluster 2 with rank 2,
and the zero-point cluster 3 with rank 3, occupying the third highlight
slot (the source always takes the first three of the points-sorted array,
`clusters.slice(0, 3)`, regardless of zero points). -/
theorem selectTop_example_ranks :
    (selectTop exList).map (fun p => (p.1.id, p.2)) = [(1, 1), (2, 2), (3, 3)] ∧
    (selectTop exList).map (fun p => p.1.points) =
      [JSNum.num (65 / 2), JSNum.num (65 / 2), JSNum.num 0] := by
  with_unfolding_all decide

/-- C4: the tier classifier maps an exact zero to tier `zero` with the
canonical display text `"0.000"` regardless of the original formatted
string, values at least 30 to `high` with the original string unchanged,
values in [15, 30) to `medium`, and values in (0, 15) to `low`; both band
boundaries belong to the higher band. -/
theorem formatClusterPoints_bands (s : String) (q : ℚ) (h : parseFloat s = JSNum.num q) :
    (q = 0 → formatClusterPoints s = (Tier.zero, "0.000")) ∧
    (30 ≤ q → formatClusterPoints s = (Tier.high, s)) ∧
    (15 ≤ q → q < 30 → formatClusterPoints s = (Tier.medium, s)) ∧
    (0 < q → q < 15 → formatClusterPoints s = (Tier.low, s)) := by
  unfold formatClusterPoints
  rw [h]
  have e30 : JSNum.ge (JSNum.num q) (JSNum.num 30) = decide (30 ≤ q) := rfl
  have e15 : JSNum.ge (JSNum.num q) (JSNum.num 15) = decide (15 ≤ q) := rfl
  have e0 : JSNum.gt (JSNum.num q) (JSNum.num 0) = decide (0 < q) := rfl
  refine ⟨fun h0 => ?_, fun h30 => ?_, fun h15 h30 => ?_, fun h0 h15 => ?_⟩
  · have g30 : ¬JSNum.ge (JSNum.num q) (JSNum.num 30) = true := by
      rw [e30]
      exact fun hd => absurd (of_decide_eq_true hd) (by rw [h0]; norm_num)
    have g15 : ¬JSNum.ge (JSNum.num q) (JSNum.num 15) = true := by
      rw [e15]
      exact fun hd => absurd (of_decide_eq_true hd) (by rw [h0]; norm_num)
    have g0 : ¬JSNum.gt (JSNum.num q) (JSNum.num 0) = true := by
      rw [e0]
      exact fun hd => absurd (of_decide_eq_true hd) (by rw [h0]; exact lt_irrefl 0)
    rw [if_neg g30, if_neg g15, if_neg g0]
  · rw [if_pos (e30.trans (decide_eq_true h30))]
  · have g30 : ¬JSNum.ge (JSNum.num q) (JSNum.num 30) = true := by
      rw [e30]
      exact fun hd => absurd (of_decide_eq_true hd) (not_le_of_gt h30)
    rw [if_neg g30, if_pos (e15.trans (decide_eq_true h15))]
  · have g30 : ¬JSNum.ge (JSNum.num q) (JSNum.num 30) = true := by
      rw [e30]
      exact fun hd => absurd (of_decide_eq_true hd) (not_le_of_gt (by linarith))
    have g15 : ¬JSNum.ge (JSNum.num q) (JSNum.num 15) = true := by
      rw [e15]
      exact fun hd => absurd (of_decide_eq_true hd) (not_le_of_gt h15)
    rw [if_neg g30, if_neg g15, if_pos (e0.trans (decide_eq_true h0))]

/-- C4 witness: the tier bands evaluated at concrete inputs, one per band:
the boundary 30 is high, the boundary 15 is medium (15 < 30), 7 is low, and
0 formatted as "0.00" is zero with canonical text "0.000" (canonicalized
away from the original string). -/
theorem formatClusterPoints_bands_witness :
    parseFloat "0.00" = JSNum.num 0 ∧
    formatClusterPoints "0.00" = (Tier.zero, "0.000") ∧
    formatClusterPoints "30" = (Tier.high, "30") ∧
    formatClusterPoints "15" = (Tier.medium, "15") ∧
    formatClusterPoints "7" = (Tier.low, "7") :=
  ⟨by with_unfolding_all decide,
    (formatClusterPoints_bands "0.00" 0 (by with_unfolding_all decide)).1 rfl,
    (formatClusterPoints_bands "30" 30 (by with_unfolding_all decide)).2.1 (by norm_num),
    (formatClusterPoints_bands "15" 15 (by with_unfolding_all decide)).2.2.1
      (by norm_num) (by norm_num),
    (formatClusterPoints_bands "7" 7 (by with_unfolding_all decide)).2.2.2
      (by norm_num) (by norm_num)⟩

/-- C9: every input string whose parse is `NaN` falls through all numeric
comparisons of `formatClusterPoints` and is rendered as tier `zero` with the
canonical literal `"0.000"`, indistinguishable from an exact-zero score. -/
theorem nan_renders_as_zero (s : String) (h : parseFloat s = JSNum.nan) :
    formatClusterPoints s = (Tier.zero, "0.000") := by
  unfold formatClusterPoints
  rw [h]
  rfl

/-- C9 witness: the unparseable string "abc" parses to `NaN` and is
rendered as an exact zero. -/
theorem nan_renders_as_zero_witness :
    parseFloat "abc" = JSNum.nan ∧ formatClusterPoints "abc" = (Tier.zero, "0.000") :=
  ⟨by decide, nan_renders_as_zero "abc" (by decide)⟩

/-- C6 counterexample: on a results mapping whose only entry ("Cluster 1")
holds the unparseable string "abc", the normalization loop keeps the entry
(with `points = NaN`) instead of dropping it, and produces no error value:
its return type has no error component at all. -/
theorem unparseable_entry_not_dropped :
    (normalizeResults badResults exDetails).map (fun c => (c.id, c.points, c.pointsFormatted)) =
      [(1, JSNum.nan, "abc")] := by
  decide

/-- C6 (amended): a cluster whose formatted points string fails numeric
parsing is NOT dropped by the normalization loop: it is kept in the
normalized list with `points = NaN` (so it is at least not coerced to zero),
and no error value is returned — the loop has no error channel. -/
theorem unparseable_entry_kept_nan (results : ℕ → Option String)
    (details : ℕ → Option ClusterDetail) (i : ℕ) (s : String)
    (h1 : 1 ≤ i) (h2 : i ≤ 20) (hres : results i = some s) (hne : s ≠ "")
    (hnan : parseFloat s = JSNum.nan) :
    ∃ c ∈ normalizeResults results details, c.id = i ∧ c.points = JSNum.nan ∧
      c.pointsFormatted = s := by
  refine ⟨⟨i, "Cluster " ++ toString i, parseFloat s, s,
    (match details i with
      | some d => d.description
      | none => "")⟩, ?_, rfl, hnan, rfl⟩
  unfold normalizeResults
  refine List.mem_filterMap.mpr ⟨i, ?_, ?_⟩
  · exact List.mem_range'.mpr ⟨i - 1, by omega, by omega⟩
  · rw [hres]
    exact if_neg hne

/-- C6 witness: the amended theorem applied to the concrete mapping with
"abc" at "Cluster 1". -/
theorem unparseable_entry_kept_nan_witness :
    parseFloat "abc" = JSNum.nan ∧
      ∃ c ∈ normalizeResults badResults exDetails, c.id = 1 ∧ c.points = JSNum.nan ∧
        c.pointsFormatted = "abc" :=
  ⟨by decide,
    unparseable_entry_kept_nan badResults exDetails 1 "abc" (by decide) (by decide)
      (by decide) (by decide) (by decide)⟩

/-- C8: the detail view never displays a total at all.  Evaluated at the
failing input (one mathematics A contribution worth 12 points, and likewise
at the empty list), `showClusterDetails` raises `ReferenceError` on the
never-declared `html` before the `totalPoints` accumulation, the badge
annotation, or the `"${totalPoints} / 48"` line of script.js lines 57-81
can execute — the aggregation and the 48 denominator the claim describes
are the evident intent of that dead code, but the program throws first. -/
theorem showClusterDetails_raises :
    showClusterDetails [⟨"mathematics", "A", 12, none⟩] =
      Except.error "ReferenceError: html is not defined" ∧
    showClusterDetails [] = Except.error "ReferenceError: html is not defined" :=
  ⟨rfl, rfl⟩

/-- C10: any sort-mode string outside {number, points, non-zero} runs the
default comparator (ascending by id) with every entry visible, identical to
the "number" mode — the sort neither fails nor leaves the order alone. -/
theorem unknown_mode_fallback (m : String) (_h1 : m ≠ "number") (h2 : m ≠ "points")
    (h3 : m ≠ "non-zero") (l : List ClusterResult) :
    sortClusters m l = sortClusters "number" l ∧
    ((sortClusters m l).map Prod.fst).Perm l ∧
    ((sortClusters m l).map Prod.fst).Pairwise (fun a b => a.id ≤ b.id) ∧
    ∀ p ∈ sortClusters m l, p.2 = true := by
  have hcmp : sortCmp m = sortCmp "number" := by
    funext a b
    rw [sortCmp_id_def h2 h3, sortCmp_id_def (by decide) (by decide)]
  refine ⟨?_, ?_, ?_, ?_⟩
  · rw [sortClusters_eq_map h3 l, sortClusters_eq_map (by decide) l, hcmp]
  · rw [sortClusters_eq_map h3 l, listOf_map_fst]
    exact stableSort_perm _ l
  · rw [sortClusters_eq_map h3 l, listOf_map_fst]
    exact jsSort_id_pairwise h2 h3 l
  · intro p hp
    rw [sortClusters_eq_map h3 l] at hp
    obtain ⟨c, _, rfl⟩ := List.mem_map.mp hp
    rfl

/-- C10 witness: the fallback applied to the unknown mode "random" on the
example list. -/
theorem unknown_mode_fallback_witness :
    sortClusters "random" exList = sortClusters "number" exList ∧
    ((sortClusters "random" exList).map Prod.fst).Perm exList :=
  ⟨(unknown_mode_fallback "random" (by decide) (by decide) (by decide) exList).1,
    (unknown_mode_fallback "random" (by decide) (by decide) (by decide) exList).2.1⟩

/-- C5: the non-zero mode produces the same underlying order as the points
mode (descending points, ties by ascending id); every entry is retained in
its sorted position (the output is a permutation of the input), and an
entry is marked visible exactly when its points are not zero. -/
theorem nonzero_mode_spec (l : List ClusterResult) (h : Normalized l) :
    (sortClusters "non-zero" l).map Prod.fst = (sortClusters "points" l).map Prod.fst ∧
    ((sortClusters "non-zero" l).map Prod.fst).Pairwise clusterLt ∧
    ((sortClusters "non-zero" l).map Prod.fst).Perm l ∧
    ∀ p ∈ sortClusters "non-zero" l, (p.2 = true ↔ p.1.points ≠ JSNum.num 0) := by
  have he : (sortClusters "non-zero" l).map Prod.fst = displayOrder l := by
    rw [sortClusters_nonzero_eq_map, listOf_map_fst, jsSort_nonzero_eq_displayOrder h]
  have he2 : (sortClusters "points" l).map Prod.fst = displayOrder l := by
    rw [sortClusters_eq_map (by decide) l, listOf_map_fst, jsSort_points_eq_displayOrder h]
  refine ⟨he.trans he2.symm, ?_, ?_, ?_⟩
  · rw [he]
    exact displayOrder_pairwise h
  · rw [he]
    exact displayOrder_perm l
  · intro p hp
    rw [sortClusters_nonzero_eq_map] at hp
    obtain ⟨c, hc, rfl⟩ := List.mem_map.mp hp
    have hg : goodEntry c = true := by
      rw [jsSort_nonzero_eq_displayOrder h] at hc
      exact normalized_good h c ((displayOrder_perm l).mem_iff.mp hc)
    show (!(JSNum.eqZero (domPoints c))) = true ↔ c.points ≠ JSNum.num 0
    rw [domPoints_num hg, eqZero_num, Bool.not_eq_true', decide_eq_false_iff_not]
    constructor
    · intro hq he0
      exact hq (by rw [he0]; rfl)
    · intro hne h0
      exact hne ((goodEntry_elim hg).1.trans (by rw [h0]))

/-- C5 witness: the theorem applied to the concrete normalized list of the
spec §8 example. -/
theorem nonzero_mode_spec_witness :
    Normalized exList ∧
      (sortClusters "non-zero" exList).map Prod.fst =
        (sortClusters "points" exList).map Prod.fst :=
  ⟨by with_unfolding_all decide,
    (nonzero_mode_spec exList (by with_unfolding_all decide)).1⟩

/-- C7: re-invoking the sort with a second mode on the view produced by a
first mode gives exactly the result of sorting the original normalized list
with the second mode, and every view is a permutation of the unchanged
input records (the records themselves are never modified). -/
theorem order_mode_switch (l : List ClusterResult) (h : Normalized l) (m1 m2 : String) :
    sortClusters m2 ((sortClusters m1 l).map Prod.fst) = sortClusters m2 l ∧
    ((sortClusters m1 l).map Prod.fst).Perm l := by
  have hviews := listOf_sortClusters (m := m1) h
  refine ⟨sortClusters_on_views h hviews, ?_⟩
  rcases hviews with hv | hv
  · rw [hv]
  · rw [hv]
    exact displayOrder_perm l

/-- C7 witness: switching from points mode to number mode on the example
list agrees with sorting the original list by number mode directly. -/
theorem order_mode_switch_witness :
    Normalized exList ∧
      sortClusters "number" ((sortClusters "points" exList).map Prod.fst) =
        sortClusters "number" exList :=
  ⟨by with_unfolding_all decide,
    (order_mode_switch exList (by with_unfolding_all decide) "points" "number").1⟩

theorem map_fst_pair {α β : Type} (l : List α) (f : α → β) :
    (l.map (fun c => (c, f c))).map Prod.fst = l := by
  rw [List.map_map]
  exact List.map_id' l

theorem selectTop_congr {x l : List ClusterResult} (he : displayOrder x = displayOrder l) :
    selectTop x = selectTop l := by
  simp only [selectTop]
  rw [he]

/-- C3: the top selection returns at most 3 entries, ordered by its own
descending-points order with ties by ascending id, each annotated with its
1-based rank in that order; and applying the display sort with any mode
first does not change the selected set or the assigned ranks. -/
theorem selectTop_spec (l : List ClusterResult) (h : Normalized l) :
    (selectTop l).length ≤ 3 ∧
    ((selectTop l).map Prod.fst).Pairwise clusterLt ∧
    (∀ i, ∀ hi : i < (selectTop l).length, ((selectTop l).get ⟨i, hi⟩).2 = i + 1) ∧
    ∀ m : String, selectTop ((sortClusters m l).map Prod.fst) = selectTop l := by
  have hsel : selectTop l = ((displayOrder l).take 3).map
      (fun c => (c, (displayOrder l).indexOf c + 1)) := rfl
  have hnd : (displayOrder l).Nodup :=
    ((displayOrder_perm l).nodup_iff).mpr (normalized_nodup h)
  refine ⟨?_, ?_, ?_, ?_⟩
  · rw [hsel, List.length_map]
    exact List.length_take_le 3 _
  · rw [hsel, map_fst_pair]
    exact List.Pairwise.sublist (List.take_sublist 3 _) (displayOrder_pairwise h)
  · intro i hi
    have hi2 : i < (((displayOrder l).take 3).map
        (fun c => (c, (displayOrder l).indexOf c + 1))).length := hi
    have hi3 : i < ((displayOrder l).take 3).length := by
      rw [List.length_map] at hi2
      exact hi2
    show ((((displayOrder l).take 3).map
        (fun c => (c, (displayOrder l).indexOf c + 1))).get ⟨i, hi2⟩).2 = i + 1
    rw [List.get_eq_getElem, List.getElem_map]
    show (displayOrder l).indexOf (((displayOrder l).take 3).get ⟨i, hi3⟩) + 1 = i + 1
    rw [List.get_eq_getElem, List.getElem_take, List.indexOf_getElem hnd]
  · intro m
    refine selectTop_congr ?_
    rcases listOf_sortClusters (m := m) h with hv | hv
    · rw [hv]
    · rw [hv, displayOrder_idem h]

/-- C3 witness: the theorem applied to the concrete normalized list of the
spec §8 example, with the display sort mode instantiated to "number". -/
theorem selectTop_spec_witness :
    Normalized exList ∧ (selectTop exList).length ≤ 3 ∧
      selectTop ((sortClusters "number" exList).map Prod.fst) = selectTop exList :=
  ⟨by with_unfolding_all decide,
    (selectTop_spec exList (by with_unfolding_all decide)).1,
    (selectTop_spec exList (by with_unfolding_all decide)).2.2.2 "number"⟩
